import Mathlib

/-!
# termOTP — verification of the vault decryption and credential pipeline

Shallow embedding of the core of the `termotp` program (repository
`marcopaganini/termotp`): recovering the Aegis master key from the
password-wrapped key slots of an encrypted JSON export (`aegisDecrypt`),
decrypting the database blob, turning decrypted entries into displayed
OTP rows (`filterAegisVault`), sorting the result (`main`), and reading a
piped password (`readPassword`).

Bytes are modelled as `Nat` (values `0..255`); byte strings as `List Nat`.
The external cryptographic primitives (`golang.org/x/crypto/scrypt` and
`crypto/aes` + `crypto/cipher` AES-GCM) are not part of this repository and
are abstracted as an oracle record `Crypto`; everything the repository's own
code does around them (field ordering, hex/base64 decoding, ciphertext
concatenation, control flow, error selection) is embedded faithfully.
-/

set_option maxRecDepth 8000

namespace TermOTP

/-- Go `hex.DecodeString` on a list of characters: decodes pairs of hex
digits, fails on an odd-length input or a non-hex character. -/
def hexDigit (c : Char) : Option Nat :=
  if ('0' ≤ c ∧ c ≤ '9') then some (c.toNat - '0'.toNat)
  else if ('a' ≤ c ∧ c ≤ 'f') then some (c.toNat - 'a'.toNat + 10)
  else if ('A' ≤ c ∧ c ≤ 'F') then some (c.toNat - 'A'.toNat + 10)
  else none

/-- Pairwise hex decoding of a character list (Go `hex.DecodeString`). -/
def hexDecodeAux : List Char → Option (List Nat)
  | [] => some []
  | [_] => none
  | c1 :: c2 :: rest => do
    let hi ← hexDigit c1
    let lo ← hexDigit c2
    let r ← hexDecodeAux rest
    pure ((hi * 16 + lo) :: r)

/-- Go `hex.DecodeString` on a `String`. -/
def hexDecode (s : String) : Option (List Nat) :=
  hexDecodeAux s.data

/-- One base64 standard-alphabet digit (Go `base64.StdEncoding`). -/
def b64Digit (c : Char) : Option Nat :=
  if ('A' ≤ c ∧ c ≤ 'Z') then some (c.toNat - 'A'.toNat)
  else if ('a' ≤ c ∧ c ≤ 'z') then some (c.toNat - 'a'.toNat + 26)
  else if ('0' ≤ c ∧ c ≤ '9') then some (c.toNat - '0'.toNat + 52)
  else if c = '+' then some 62
  else if c = '/' then some 63
  else none

/-- Go `base64.StdEncoding.DecodeString` on characters: quanta of four
digits, with `=` padding allowed only in the final quantum (one or two
pad characters). Trailing bits beyond the encoded bytes are not checked,
matching Go's non-strict `StdEncoding`. -/
def base64DecodeAux : List Char → Option (List Nat)
  | [] => some []
  | a :: b :: c :: d :: rest => do
    let x ← b64Digit a
    let y ← b64Digit b
    if c = '=' then
      if d = '=' ∧ rest = [] then some [x * 4 + y / 16] else none
    else do
      let z ← b64Digit c
      if d = '=' then
        if rest = [] then some [x * 4 + y / 16, (y % 16) * 16 + z / 4] else none
      else do
        let w ← b64Digit d
        let r ← base64DecodeAux rest
        some ([x * 4 + y / 16, (y % 16) * 16 + z / 4, (z % 4) * 64 + w] ++ r)
  | _ => none

/-- Go `base64.StdEncoding.DecodeString`: the decoder ignores CR and LF
characters in the input. -/
def base64Decode (s : String) : Option (List Nat) :=
  base64DecodeAux (s.data.filter (fun c => c ≠ '\r' ∧ c ≠ '\n'))

/-! ## Data model: the encrypted Aegis export (`aegisEncryptedJSON`) -/

/-- `key_params` of one key slot: hex nonce and tag for the AES-GCM key
unwrap (struct `KeyParams` in `aegisEncryptedJSON`). -/
structure aegisKeyParams where
  nonce : String
  tag : String
  deriving DecidableEq

/-- One master-key slot of the encrypted export header
(`aegisEncryptedJSON.Header.Slots` element). `type`, `n`, `r`, `p` are Go
`int`s; `key`, `salt` and the `keyParams` fields are hex strings. -/
structure aegisSlot where
  type : Int
  uuid : String
  key : String
  keyParams : aegisKeyParams
  n : Int
  r : Int
  p : Int
  salt : String
  deriving DecidableEq

/-- Envelope-level `params`: hex nonce and tag for the database blob
(`aegisEncryptedJSON.Header.Params`). -/
structure aegisHeaderParams where
  nonce : String
  tag : String
  deriving DecidableEq

/-- `aegisEncryptedJSON.Header`. -/
structure aegisHeader where
  slots : List aegisSlot
  params : aegisHeaderParams
  deriving DecidableEq

/-- The encrypted Aegis JSON export (`aegisEncryptedJSON`): version, header,
and the base64 database blob `db`. -/
structure aegisEncryptedJSON where
  version : Int
  header : aegisHeader
  db : String
  deriving DecidableEq

/-- `aegisKeyLen = 32` (constant in the source). -/
def aegisKeyLen : Nat := 32

/-- Oracle for the external cryptographic primitives used by
`aegisDecrypt`, which are library code outside this repository:
`scryptKey pw salt n r p keyLen` models `scrypt.Key` (`none` = the error
return for invalid cost parameters); `aeadOpen key nonce ciphertext`
models AES-GCM `Open` with no associated data (`none` = authentication
failure). -/
structure Crypto where
  scryptKey : List Nat → List Nat → Int → Int → Int → Nat → Option (List Nat)
  aeadOpen : List Nat → List Nat → List Nat → Option (List Nat)

/-- The distinct failure exits of `aegisDecrypt`, in source order:
wrapped hex-decode errors (`fmt.Errorf("slot salt: %v", err)` etc.), the
scrypt and `newAES` error returns, the generic key-recovery failure
(`errors.New`), the base64 error, the envelope-level hex errors, and an
authentication failure of the database-blob `Open`. -/
inductive aegisError where
  | slotSalt
  | scryptFailed
  | newAESFailed
  | slotNonce
  | slotTag
  | slotKey
  | keyRecovery
  | dbBase64
  | paramsNonce
  | paramsTag
  | dbOpenFailed
  deriving DecidableEq

/-- The user-facing message of each failure. `keyRecovery` carries the
code's exact `errors.New` text; the hex-decode failures are
`fmt.Errorf` wrappers whose message begins with the shown field name (the
wrapped Go library error text is abbreviated here as a placeholder). -/
def errorMessage : aegisError → String
  | .slotSalt => "slot salt: <hex decode error>"
  | .scryptFailed => "<scrypt error>"
  | .newAESFailed => "crypto/aes: invalid key size"
  | .slotNonce => "slot nonce: <hex decode error>"
  | .slotTag => "slot tag: <hex decode error>"
  | .slotKey => "slot key: <hex decode error>"
  | .keyRecovery => "unable to decrypt the master key with the given password"
  | .dbBase64 => "<base64 decode error>"
  | .paramsNonce => "params nonce: <hex decode error>"
  | .paramsTag => "params tag: <hex decode error>"
  | .dbOpenFailed => "cipher: message authentication failed"

/-- `newAES`: `aes.NewCipher` fails unless the key is 16, 24 or 32 bytes;
`cipher.NewGCM` never fails on an AES block. On success the resulting AEAD
is the oracle's `aeadOpen` applied to this key. -/
def newAES (C : Crypto) (key : List Nat) :
    Except aegisError (List Nat → List Nat → Option (List Nat)) :=
  if key.length = 16 ∨ key.length = 24 ∨ key.length = 32 then
    .ok (C.aeadOpen key)
  else
    .error .newAESFailed

/-- The body of one iteration of the master-key loop in `aegisDecrypt`
for a slot that has already passed the `slot.Type != 1` test, in source
order: hex-decode the salt, derive the scrypt key, build the AEAD,
hex-decode nonce/tag/key, and `Open` the concatenation `keyslot ++ tag`
with the slot nonce and no associated data. `.ok none` is an
authentication failure (the loop continues), `.ok (some mk)` a recovered
master key (the loop breaks), `.error e` an aborting error. -/
def slotAttempt (C : Crypto) (password : List Nat) (slot : aegisSlot) :
    Except aegisError (Option (List Nat)) :=
  match hexDecode slot.salt with
  | none => .error .slotSalt
  | some salt =>
    match C.scryptKey password salt slot.n slot.r slot.p aegisKeyLen with
    | none => .error .scryptFailed
    | some key =>
      match newAES C key with
      | .error e => .error e
      | .ok aead =>
        match hexDecode slot.keyParams.nonce with
        | none => .error .slotNonce
        | some nonce =>
          match hexDecode slot.keyParams.tag with
          | none => .error .slotTag
          | some tag =>
            match hexDecode slot.key with
            | none => .error .slotKey
            | some keyslot => .ok (aead nonce (keyslot ++ tag))

/-- The `for _, slot := range encJSON.Header.Slots` loop of `aegisDecrypt`:
slots whose `Type` is not 1 are skipped with `continue`; an `Open` failure
skips to the next slot; the first successful `Open` breaks with its
plaintext. Exhausting the slots leaves `masterkey` empty (`.ok []`), the
state checked by `len(masterkey) == 0` afterwards. -/
def recoverMasterKey (C : Crypto) (password : List Nat) :
    List aegisSlot → Except aegisError (List Nat)
  | [] => .ok []
  | slot :: rest =>
    if slot.type = 1 then
      match slotAttempt C password slot with
      | .error e => .error e
      | .ok none => recoverMasterKey C password rest
      | .ok (some mk) => .ok mk
    else
      recoverMasterKey C password rest

/-- `aegisDecrypt` after the file read and JSON unmarshal (I/O and parsing
of the envelope are outside this model; the function is given the parsed
envelope): recover the master key from the header slots, fail with the
generic message if it is empty, base64-decode `db`, build the AEAD from the
master key, hex-decode the envelope-level nonce and tag, and `Open` the
concatenation `content ++ tag`. -/
def aegisDecrypt (C : Crypto) (env : aegisEncryptedJSON) (password : List Nat) :
    Except aegisError (List Nat) :=
  match recoverMasterKey C password env.header.slots with
  | .error e => .error e
  | .ok masterkey =>
    if masterkey.length = 0 then .error .keyRecovery
    else
      match base64Decode env.db with
      | none => .error .dbBase64
      | some content =>
        match newAES C masterkey with
        | .error e => .error e
        | .ok aead =>
          match hexDecode env.header.params.nonce with
          | none => .error .paramsNonce
          | some nonce =>
            match hexDecode env.header.params.tag with
            | none => .error .paramsTag
            | some tag =>
              match aead nonce (content ++ tag) with
              | none => .error .dbOpenFailed
              | some db => .ok db

/-! ## TOTP generation

The token for a `"totp"` entry is produced by the external library call
`gotp.NewDefaultTOTP(entry.Info.Secret).Now()`. The library is not part of
this repository; its algorithm is modelled from the spec (section 4.5):
base32-decode the secret, take the 8-byte big-endian counter
`floor(atTime / period)`, HMAC the counter with the secret, dynamically
truncate, reduce modulo `10^digits` and zero-pad — with gotp's default
parameters SHA-1, 6 digits, 30 seconds. -/

/-- Truncate to 32 bits. -/
def w32 (n : Nat) : Nat := n % 4294967296

/-- Rotate a 32-bit word left by `s` bits. -/
def rotl (s n : Nat) : Nat := w32 (n * 2 ^ s + n / 2 ^ (32 - s))

/-- Big-endian bytes of `n`, `k` bytes wide. -/
def toBytesBE : Nat → Nat → List Nat
  | 0, _ => []
  | k + 1, n => toBytesBE k (n / 256) ++ [n % 256]

/-- Split a byte list into 64-byte chunks (fuel = list length). -/
def chunks64Aux : Nat → List Nat → List (List Nat)
  | 0, _ => []
  | _, [] => []
  | fuel + 1, l => l.take 64 :: chunks64Aux fuel (l.drop 64)

/-- Split a byte list into 64-byte chunks. -/
def chunks64 (l : List Nat) : List (List Nat) := chunks64Aux l.length l

/-- SHA-1 padding: append `0x80`, zeros to 56 mod 64, and the 8-byte
big-endian bit length. -/
def sha1Pad (msg : List Nat) : List Nat :=
  msg ++ [128] ++ List.replicate ((64 + 55 - msg.length % 64) % 64) 0
      ++ toBytesBE 8 (msg.length * 8)

/-- Big-endian 32-bit words of a 64-byte block. -/
def wordsOfBlock : List Nat → List Nat
  | b0 :: b1 :: b2 :: b3 :: rest =>
    (b0 * 16777216 + b1 * 65536 + b2 * 256 + b3) :: wordsOfBlock rest
  | _ => []

/-- One message-schedule extension step on the reversed schedule. -/
def sha1ExtendStep (acc : List Nat) : List Nat :=
  rotl 1 (acc.getD 2 0 ^^^ acc.getD 7 0 ^^^ acc.getD 13 0 ^^^ acc.getD 15 0) :: acc

/-- Extend the 16 block words to the 80-entry SHA-1 message schedule. -/
def sha1Schedule (ws : List Nat) : List Nat :=
  ((List.range 64).foldl (fun acc _ => sha1ExtendStep acc) ws.reverse).reverse

/-- The round function of SHA-1 (bitwise complement within 32 bits is
`4294967295 - b`). -/
def sha1F (i b c d : Nat) : Nat :=
  if i < 20 then (b &&& c) ||| ((4294967295 - w32 b) &&& d)
  else if i < 40 then b ^^^ c ^^^ d
  else if i < 60 then (b &&& c) ||| (b &&& d) ||| (c &&& d)
  else b ^^^ c ^^^ d

/-- The round constant of SHA-1. -/
def sha1K (i : Nat) : Nat :=
  if i < 20 then 1518500249
  else if i < 40 then 1859775393
  else if i < 60 then 2400959708
  else 3395469782

/-- Working state of one SHA-1 compression. -/
structure sha1State where
  a : Nat
  b : Nat
  c : Nat
  d : Nat
  e : Nat

/-- One SHA-1 round. -/
def sha1Round (s : sha1State) (iw : Nat × Nat) : sha1State :=
  { a := w32 (rotl 5 s.a + sha1F iw.1 s.b s.c s.d + s.e + sha1K iw.1 + iw.2)
    b := s.a
    c := rotl 30 s.b
    d := s.c
    e := s.d }

/-- Compress one 64-byte block into the running hash state. -/
def sha1Block (h : sha1State) (block : List Nat) : sha1State :=
  let s := ((sha1Schedule (wordsOfBlock block)).enum.foldl sha1Round h)
  { a := w32 (h.a + s.a), b := w32 (h.b + s.b), c := w32 (h.c + s.c)
    d := w32 (h.d + s.d), e := w32 (h.e + s.e) }

/-- SHA-1 of a byte list (20-byte digest). -/
def sha1 (msg : List Nat) : List Nat :=
  let h := (chunks64 (sha1Pad msg)).foldl sha1Block
    ⟨1732584193, 4023233417, 2562383102, 271733878, 3285377520⟩
  toBytesBE 4 h.a ++ toBytesBE 4 h.b ++ toBytesBE 4 h.c
    ++ toBytesBE 4 h.d ++ toBytesBE 4 h.e

/-- HMAC-SHA1 (RFC 2104, block size 64). -/
def hmacSha1 (key msg : List Nat) : List Nat :=
  let k0 := if key.length > 64 then sha1 key else key
  let kp := k0 ++ List.replicate (64 - k0.length) 0
  sha1 ((kp.map (fun b => b ^^^ 92)) ++ sha1 ((kp.map (fun b => b ^^^ 54)) ++ msg))

/-- One base32 standard-alphabet digit, accepted case-insensitively. -/
def b32Digit (c : Char) : Option Nat :=
  if ('A' ≤ c ∧ c ≤ 'Z') then some (c.toNat - 'A'.toNat)
  else if ('a' ≤ c ∧ c ≤ 'z') then some (c.toNat - 'a'.toNat)
  else if ('2' ≤ c ∧ c ≤ '7') then some (c.toNat - '2'.toNat + 26)
  else none

/-- Bit-accumulating base32 decode: `acc` holds `bits` pending bits. -/
def base32DecodeCore : List Char → Nat → Nat → Option (List Nat)
  | [], _, _ => some []
  | c :: cs, acc, bits =>
    match b32Digit c with
    | none => none
    | some v =>
      let acc2 := acc * 32 + v
      if bits + 5 ≥ 8 then
        (base32DecodeCore cs (acc2 % 2 ^ (bits + 5 - 8)) (bits + 5 - 8)).map
          (fun r => acc2 / 2 ^ (bits + 5 - 8) :: r)
      else
        base32DecodeCore cs acc2 (bits + 5)

/-- RFC 4648 base32 decoding of the shared secret, padding stripped
(modelled from the spec: the secret is base32 text handed to the TOTP
generator; gotp decodes it with Go's standard base32 alphabet). -/
def base32Decode (s : String) : Option (List Nat) :=
  base32DecodeCore (s.data.filter (fun c => c ≠ '=')) 0 0

/-- Decimal digit characters of `n`, most significant first. -/
def decDigits (n : Nat) : List Char :=
  if _h : n < 10 then [Nat.digitChar n]
  else decDigits (n / 10) ++ [Nat.digitChar (n % 10)]
  termination_by n
  decreasing_by exact Nat.div_lt_self (by omega) (by omega)

/-- Left-pad a character list with zeros to width `d`. -/
def zfill (d : Nat) (s : List Char) : List Char :=
  List.replicate (d - s.length) '0' ++ s

/-- RFC 4226 dynamic truncation: the low four bits of the last digest byte
select a four-byte window whose top bit is cleared. -/
def dynamicTruncate (h : List Nat) : Nat :=
  let off := h.getD (h.length - 1) 0 % 16
  (h.getD off 0 % 128) * 16777216 + h.getD (off + 1) 0 * 65536
    + h.getD (off + 2) 0 * 256 + h.getD (off + 3) 0

/-- Modelled from the spec (section 4.5): the standard time-stepped
HMAC-based code over an already-decoded secret, parameterised by the HMAC
implementation: 8-byte big-endian counter `floor(t / period)`, dynamic
truncation, reduction modulo `10^digits`, zero-padding to `digits`. -/
def totpCode (hm : List Nat → List Nat → List Nat) (key : List Nat)
    (digits period t : Nat) : String :=
  ⟨zfill digits (decDigits (dynamicTruncate (hm key (toBytesBE 8 (t / period))) % 10 ^ digits))⟩

/-- Modelled from the spec: `gotp.NewDefaultTOTP(secret).Now()` — the
library's default TOTP with SHA-1, 6 digits and a 30-second step, at
wall-clock time `t` (seconds). An undecodable base32 secret has no
specified token; it is modelled as the empty string. -/
def defaultTOTPNow (secret : String) (t : Nat) : String :=
  match base32Decode secret with
  | some key => totpCode hmacSha1 key 6 30 t
  | none => ""

/-! ## The decrypted vault (`aegisJSON`) and the filter stage -/

/-- `info` of one decrypted entry (`aegisJSON.Entries[].Info`). -/
structure aegisEntryInfo where
  secret : String
  digits : Int
  algo : String
  period : Int
  deriving DecidableEq

/-- One decrypted vault entry (`aegisJSON.Entries` element). -/
structure aegisEntry where
  type : String
  name : String
  issuer : String
  icon : String
  info : aegisEntryInfo
  deriving DecidableEq

/-- The output-facing row (`otpEntry` in the source). -/
structure otpEntry where
  issuer : String
  account : String
  token : String
  deriving DecidableEq

/-- The token computed for one entry in the `filterAegisVault` loop:
`"Unknown OTP type: " + entry.Type` unless the type is `"totp"`, in which
case `gotp.NewDefaultTOTP(entry.Info.Secret).Now()` at time `atTime`. -/
def entryToken (atTime : Nat) (e : aegisEntry) : String :=
  if e.type = "totp" then defaultTOTPNow e.info.secret atTime
  else "Unknown OTP type: " ++ e.type

/-- The `otpEntry` built from a kept entry. -/
def otpOf (atTime : Nat) (e : aegisEntry) : otpEntry :=
  { issuer := e.issuer, account := e.name, token := entryToken atTime e }

/-- `filterAegisVault` after the JSON unmarshal (parsing is outside this
model; the function is given the entry list): per entry, compute the token
and keep the entry when the compiled regular expression — abstracted as the
predicate `rematch` — matches its issuer or its name. -/
def filterAegisVault (atTime : Nat) (rematch : String → Bool) :
    List aegisEntry → List otpEntry
  | [] => []
  | e :: rest =>
    let token := entryToken atTime e
    if rematch e.issuer || rematch e.name then
      { issuer := e.issuer, account := e.name, token := token }
        :: filterAegisVault atTime rematch rest
    else
      filterAegisVault atTime rematch rest

/-- The matcher compiled from the default pattern `"."` used by `main` when
no argument is given (`r := "."`): Go regexp `MatchString` with `.` matches
a string exactly when it contains a character other than newline. -/
def dotMatch (s : String) : Bool :=
  s.data.any (fun c => c ≠ '\n')

/-! ## The sort in `main` and the piped-password read -/

/-- The composite sort key `issuer + "/" + account` used by `main`. -/
def vaultKey (e : otpEntry) : String :=
  e.issuer ++ "/" ++ e.account

/-- The comparison of the `sort.Slice` call in `main`:
`key1 > key2`, i.e. descending by composite key. -/
def vaultLess (a b : otpEntry) : Prop :=
  vaultKey b ≤ vaultKey a

instance : DecidableRel vaultLess := fun a b =>
  inferInstanceAs (Decidable (vaultKey b ≤ vaultKey a))

instance : IsTotal otpEntry vaultLess :=
  ⟨fun a b => le_total (vaultKey b) (vaultKey a)⟩

instance : IsTrans otpEntry vaultLess :=
  ⟨fun _ _ _ h1 h2 => le_trans h2 h1⟩

/-- The `sort.Slice(vault, ...)` pass of `main`, embedded as a
comparison-sort with the same ordering (descending by
`issuer + "/" + account`). -/
def sortVault (v : List otpEntry) : List otpEntry :=
  List.insertionSort vaultLess v

/-- `strings.TrimRight(s, "\r\n\x00")` on bytes: remove the trailing run
of CR (13), LF (10) and NUL (0) bytes. -/
def trimRightCRLFNul (l : List Nat) : List Nat :=
  (l.reverse.dropWhile (fun b => b = 13 || b = 10 || b = 0)).reverse

/-- The non-terminal branch of `readPassword`: a 256-byte zeroed buffer is
filled by a single `os.Stdin.Read`, which returns the prefix `chunk`
(`chunk.length ≤ 256`); the whole buffer is converted to a string and
trimmed with `strings.TrimRight(..., "\r\n\x00")`. -/
def readPasswordPiped (chunk : List Nat) : List Nat :=
  trimRightCRLFNul (chunk ++ List.replicate (256 - chunk.length) 0)

/-! ## Concrete fixtures for witnesses and counterexamples -/

instance {ε α : Type} [DecidableEq ε] [DecidableEq α] : DecidableEq (Except ε α)
  | .ok a, .ok b =>
    if h : a = b then isTrue (by rw [h])
    else isFalse (fun he => h (Except.ok.inj he))
  | .ok _, .error _ => isFalse (fun he => Except.noConfusion he)
  | .error _, .ok _ => isFalse (fun he => Except.noConfusion he)
  | .error e, .error f =>
    if h : e = f then isTrue (by rw [h])
    else isFalse (fun he => h (Except.error.inj he))

/-- A test password. -/
def pwW : List Nat := [112, 119]

/-- A crypto oracle whose slot unwrap (nonce `[1]`) yields a 32-byte key
and whose database open (nonce `[2]`) accepts exactly that key. -/
def cryptoOpen32 : Crypto where
  scryptKey := fun _ _ _ _ _ kl => some (List.replicate kl 7)
  aeadOpen := fun key nonce _ =>
    if nonce = [1] then some (List.replicate 32 3)
    else if nonce = [2] ∧ key = List.replicate 32 3 then some [9]
    else none

/-- A crypto oracle whose slot unwrap yields a 16-byte key and whose
database open accepts that 16-byte key. -/
def cryptoOpen16 : Crypto where
  scryptKey := fun _ _ _ _ _ kl => some (List.replicate kl 7)
  aeadOpen := fun key nonce _ =>
    if nonce = [1] then some (List.replicate 16 3)
    else if nonce = [2] ∧ key = List.replicate 16 3 then some [8]
    else none

/-- A crypto oracle for which every AEAD open fails authentication
(a wrong password). -/
def cryptoFail : Crypto where
  scryptKey := fun _ _ _ _ _ kl => some (List.replicate kl 7)
  aeadOpen := fun _ _ _ => none

/-- A password slot whose unwrap nonce is `[1]` (authenticates under
`cryptoOpen32` / `cryptoOpen16`). -/
def slotOk : aegisSlot :=
  { type := 1, uuid := "u1", key := "03", keyParams := { nonce := "01", tag := "02" }
    n := 16384, r := 8, p := 1, salt := "00" }

/-- A password slot whose unwrap nonce is `[5]` (fails authentication
under the oracles above: a tag mismatch). -/
def slotFail : aegisSlot :=
  { type := 1, uuid := "u2", key := "03", keyParams := { nonce := "05", tag := "02" }
    n := 16384, r := 8, p := 1, salt := "00" }

/-- A non-password slot (`type` 2, biometric). -/
def slotT2 : aegisSlot :=
  { type := 2, uuid := "u3", key := "03", keyParams := { nonce := "01", tag := "02" }
    n := 16384, r := 8, p := 1, salt := "00" }

/-- A password slot whose salt is not valid hex. -/
def slotBadSalt : aegisSlot :=
  { type := 1, uuid := "u4", key := "03", keyParams := { nonce := "01", tag := "02" }
    n := 16384, r := 8, p := 1, salt := "zz" }

/-- Envelope-level parameters decoding to nonce `[2]`, tag `[4]`. -/
def paramsW : aegisHeaderParams := { nonce := "02", tag := "04" }

/-- An envelope with one valid slot followed by a slot whose salt is
undecodable hex; the second slot is never reached. -/
def envSecondBad : aegisEncryptedJSON :=
  { version := 1, header := { slots := [slotOk, slotBadSalt], params := paramsW }
    db := "AAAA" }

/-- An envelope whose only password slot has an undecodable salt. -/
def envBadSalt : aegisEncryptedJSON :=
  { version := 1, header := { slots := [slotBadSalt], params := paramsW }
    db := "AAAA" }

/-- An envelope with a single valid password slot. -/
def envOneSlot : aegisEncryptedJSON :=
  { version := 1, header := { slots := [slotOk], params := paramsW }
    db := "AAAA" }

/-- An envelope with a non-password slot and one password slot. -/
def envMixed : aegisEncryptedJSON :=
  { version := 1, header := { slots := [slotT2, slotOk], params := paramsW }
    db := "AAAA" }

/-! ## Master-key recovery: helper lemmas -/

/-- Slots that are non-password or fail authentication are skipped: the
loop continues exactly as if they were absent. -/
theorem recoverMasterKey_skip (C : Crypto) (pw : List Nat) (pre rest : List aegisSlot)
    (hpre : ∀ s2 ∈ pre, s2.type ≠ 1 ∨ slotAttempt C pw s2 = Except.ok none) :
    recoverMasterKey C pw (pre ++ rest) = recoverMasterKey C pw rest := by
  induction pre with
  | nil => rfl
  | cons a pre ih =>
    have ha := hpre a (List.mem_cons_self a pre)
    have hrest : ∀ s2 ∈ pre, s2.type ≠ 1 ∨ slotAttempt C pw s2 = Except.ok none :=
      fun s2 hs2 => hpre s2 (List.mem_cons_of_mem a hs2)
    by_cases ht : a.type = 1
    · rcases ha with h1 | h2
      · exact absurd ht h1
      · simp only [List.cons_append, recoverMasterKey, if_pos ht, h2]
        exact ih hrest
    · simp only [List.cons_append, recoverMasterKey, if_neg ht]
      exact ih hrest

/-- If every password slot fails authentication, the loop exhausts the
slots and leaves the master key empty. -/
theorem recoverMasterKey_allFail (C : Crypto) (pw : List Nat) (slots : List aegisSlot)
    (h : ∀ s ∈ slots, s.type = 1 → slotAttempt C pw s = Except.ok none) :
    recoverMasterKey C pw slots = Except.ok [] := by
  have := recoverMasterKey_skip C pw slots []
    (fun s2 hs2 => by
      by_cases ht : s2.type = 1
      · exact Or.inr (h s2 hs2 ht)
      · exact Or.inl ht)
  simpa using this

/-! ## C1 — slot iteration order, skipping, first-success semantics -/

/-- C1: master-key recovery iterates the slots in envelope order; every
slot that is non-password (`type ≠ 1`) or whose AEAD unwrap fails
authentication is skipped non-fatally, and the first password slot whose
unwrap authenticates has its decrypted plaintext returned as the master
key — regardless of what follows it, so the result is the same as if the
later slots (and the skipped earlier ones) did not exist. -/
theorem recoverMasterKey_c1 (C : Crypto) (pw : List Nat) (pre : List aegisSlot)
    (s : aegisSlot) (rest : List aegisSlot) (mk : List Nat)
    (hpre : ∀ s2 ∈ pre, s2.type ≠ 1 ∨ slotAttempt C pw s2 = Except.ok none)
    (hs : s.type = 1) (hmk : slotAttempt C pw s = Except.ok (some mk)) :
    recoverMasterKey C pw (pre ++ s :: rest) = Except.ok mk ∧
    recoverMasterKey C pw (pre ++ s :: rest) = recoverMasterKey C pw [s] := by
  have h1 : recoverMasterKey C pw (pre ++ s :: rest) = Except.ok mk := by
    rw [recoverMasterKey_skip C pw pre (s :: rest) hpre]
    simp only [recoverMasterKey, if_pos hs, hmk]
  have h2 : recoverMasterKey C pw [s] = Except.ok mk := by
    simp only [recoverMasterKey, if_pos hs, hmk]
  exact ⟨h1, h1.trans h2.symm⟩

/-- Witness for C1: a non-password slot and a corrupted (tag-mismatch)
password slot precede a valid slot, with another slot after it; recovery
returns the valid slot's plaintext, the same as for that slot alone. -/
theorem recoverMasterKey_c1_witness :
    slotT2.type = 2 ∧
    slotAttempt cryptoOpen32 pwW slotFail = Except.ok none ∧
    recoverMasterKey cryptoOpen32 pwW ([slotT2, slotFail] ++ slotOk :: [slotT2]) =
      Except.ok (List.replicate 32 3) ∧
    recoverMasterKey cryptoOpen32 pwW ([slotT2, slotFail] ++ slotOk :: [slotT2]) =
      recoverMasterKey cryptoOpen32 pwW [slotOk] := by
  refine ⟨by decide, by decide, ?_⟩
  exact recoverMasterKey_c1 cryptoOpen32 pwW [slotT2, slotFail] slotOk [slotT2]
    (List.replicate 32 3) (by decide) (by decide) (by decide)

/-! ## C3 — the generic key-recovery failure -/

/-- C3 (amended): for every envelope and password in which every
password-type slot is processed to the AEAD unwrap and fails
authentication (in particular, a wrong password against a structurally
well-formed envelope), `aegisDecrypt` returns exactly the generic
key-recovery failure, whose message is
"unable to decrypt the master key with the given password", and no
plaintext. (The unamended claim also covered envelopes whose slots abort
before the unwrap — e.g. undecodable hex — where the code returns a
field-naming error instead; see the counterexample.) -/
theorem aegisDecrypt_c3_amended (C : Crypto) (env : aegisEncryptedJSON) (pw : List Nat)
    (h : ∀ s ∈ env.header.slots, s.type = 1 → slotAttempt C pw s = Except.ok none) :
    aegisDecrypt C env pw = Except.error .keyRecovery ∧
    errorMessage .keyRecovery = "unable to decrypt the master key with the given password" := by
  have hr := recoverMasterKey_allFail C pw env.header.slots h
  refine ⟨?_, rfl⟩
  simp [aegisDecrypt, hr]

/-- Witness for C3 (amended): a non-password slot and a password slot that
fails authentication under `cryptoFail` (a wrong password) yield the
generic failure. -/
theorem aegisDecrypt_c3_witness :
    slotAttempt cryptoFail pwW slotOk = Except.ok none ∧
    aegisDecrypt cryptoFail envMixed pwW = Except.error .keyRecovery := by
  refine ⟨by decide, ?_⟩
  exact (aegisDecrypt_c3_amended cryptoFail envMixed pwW (by decide)).1

/-- Counterexample to C3 as stated: an envelope whose only password slot
has an undecodable hex salt. No slot's AEAD unwrap authenticates (the
slot aborts before the unwrap), yet `aegisDecrypt` does not return the
generic failure — it returns the field-identifying "slot salt" error. -/
theorem aegisDecrypt_c3_counterexample :
    slotAttempt cryptoOpen32 pwW slotBadSalt = Except.error .slotSalt ∧
    aegisDecrypt cryptoOpen32 envBadSalt pwW = Except.error .slotSalt ∧
    Except.error (α := List Nat) aegisError.slotSalt ≠ Except.error .keyRecovery ∧
    errorMessage .slotSalt ≠ errorMessage .keyRecovery := by
  refine ⟨by decide, by decide, by decide, by decide⟩

/-! ## C4 — AEAD ciphertext construction -/

/-- C4: the ciphertext handed to the AEAD open for key unwrapping is
exactly the decoded slot key bytes followed by the decoded slot tag,
opened with the slot's wrap nonce and no associated data; and the
ciphertext handed to the AEAD open for the database blob is exactly the
base64-decoded blob followed by the decoded envelope-level tag, opened
with the envelope-level nonce and no associated data. -/
theorem aegisDecrypt_c4 (C : Crypto) (pw : List Nat) (s : aegisSlot)
    (env : aegisEncryptedJSON)
    (salt key nonce tag keyslot mk content pnonce ptag : List Nat)
    (h1 : hexDecode s.salt = some salt)
    (h2 : C.scryptKey pw salt s.n s.r s.p aegisKeyLen = some key)
    (h3 : key.length = 32)
    (h4 : hexDecode s.keyParams.nonce = some nonce)
    (h5 : hexDecode s.keyParams.tag = some tag)
    (h6 : hexDecode s.key = some keyslot)
    (h7 : recoverMasterKey C pw env.header.slots = Except.ok mk)
    (h8 : mk.length = 32)
    (h9 : base64Decode env.db = some content)
    (h10 : hexDecode env.header.params.nonce = some pnonce)
    (h11 : hexDecode env.header.params.tag = some ptag) :
    slotAttempt C pw s = Except.ok (C.aeadOpen key nonce (keyslot ++ tag)) ∧
    aegisDecrypt C env pw =
      (match C.aeadOpen mk pnonce (content ++ ptag) with
       | none => Except.error .dbOpenFailed
       | some db => Except.ok db) := by
  constructor
  · simp [slotAttempt, h1, h2, newAES, h3, h4, h5, h6]
  · simp [aegisDecrypt, h7, h8, h9, newAES, h10, h11]

/-- Witness for C4: the concrete one-slot envelope under `cryptoOpen32`. -/
theorem aegisDecrypt_c4_witness :
    slotAttempt cryptoOpen32 pwW slotOk =
      Except.ok (cryptoOpen32.aeadOpen (List.replicate 32 7) [1] ([3] ++ [2])) ∧
    aegisDecrypt cryptoOpen32 envOneSlot pwW =
      (match cryptoOpen32.aeadOpen (List.replicate 32 3) [2] ([0, 0, 0] ++ [4]) with
       | none => Except.error .dbOpenFailed
       | some db => Except.ok db) :=
  aegisDecrypt_c4 cryptoOpen32 pwW slotOk envOneSlot
    [0] (List.replicate 32 7) [1] [2] [3] (List.replicate 32 3) [0, 0, 0] [2] [4]
    (by decide) (by decide) (by decide) (by decide) (by decide) (by decide)
    (by decide) (by decide) (by decide) (by decide) (by decide)

/-! ## C6 — key length gating -/

/-- C6 as stated: whenever no slot unwraps to a 32-byte master key,
`aegisDecrypt` is claimed to fail before attempting database decryption.
(Refuted below: AES also accepts 16- and 24-byte keys.) -/
def c6Claim : Prop :=
  ∀ (C : Crypto) (env : aegisEncryptedJSON) (pw : List Nat),
    (∀ mk, recoverMasterKey C pw env.header.slots = Except.ok mk → mk.length ≠ 32) →
    ∃ e, aegisDecrypt C env pw = Except.error e

/-- Counterexample to C6: under `cryptoOpen16` the only slot unwraps to a
16-byte key — no slot unwraps to a 32-byte key — yet `aegisDecrypt`
proceeds to database decryption and succeeds. -/
theorem aegisDecrypt_c6_counterexample : ¬ c6Claim := by
  intro h
  have h16 : recoverMasterKey cryptoOpen16 pwW envOneSlot.header.slots =
      Except.ok (List.replicate 16 3) := by decide
  have hodd : ∀ mk, recoverMasterKey cryptoOpen16 pwW envOneSlot.header.slots =
      Except.ok mk → mk.length ≠ 32 := by
    intro mk hmk
    rw [h16] at hmk
    have := Except.ok.inj hmk
    subst this
    decide
  obtain ⟨e, he⟩ := h cryptoOpen16 envOneSlot pwW hodd
  have hok : aegisDecrypt cryptoOpen16 envOneSlot pwW = Except.ok [8] := by decide
  rw [hok] at he
  exact Except.noConfusion he

/-- C6 (amended): the pipeline proceeds past key recovery to the database
AEAD open only when a slot unwraps to a nonempty key whose length AES
accepts (16, 24 or 32 bytes). When the recovery loop ends with an empty
master key, `aegisDecrypt` fails with the generic key-recovery error
before any database work; when it ends with a nonempty key of a length
AES rejects, `aegisDecrypt` fails at cipher construction, before the
database AEAD open. -/
theorem aegisDecrypt_c6_amended (C : Crypto) (env : aegisEncryptedJSON)
    (pw : List Nat) (mk : List Nat)
    (h1 : recoverMasterKey C pw env.header.slots = Except.ok mk) :
    (mk = [] → aegisDecrypt C env pw = Except.error .keyRecovery) ∧
    (mk ≠ [] → mk.length ≠ 16 → mk.length ≠ 24 → mk.length ≠ 32 →
      ∀ content, base64Decode env.db = some content →
        aegisDecrypt C env pw = Except.error .newAESFailed) := by
  constructor
  · intro hnil
    subst hnil
    simp [aegisDecrypt, h1]
  · intro hne h16 h24 h32 content hc
    have hlen : ¬ mk.length = 0 := by
      simpa [List.length_eq_zero] using hne
    have hkey : ¬ (mk.length = 16 ∨ mk.length = 24 ∨ mk.length = 32) := by
      simp [h16, h24, h32]
    simp only [aegisDecrypt, h1, if_neg hlen, hc, newAES, if_neg hkey]

/-- Witness for C6 (amended): every unwrap failing leaves the master key
empty and yields the generic failure. -/
theorem aegisDecrypt_c6_witness :
    recoverMasterKey cryptoFail pwW envMixed.header.slots = Except.ok [] ∧
    aegisDecrypt cryptoFail envMixed pwW = Except.error .keyRecovery := by
  refine ⟨by decide, ?_⟩
  exact (aegisDecrypt_c6_amended cryptoFail envMixed pwW [] (by decide)).1 rfl

/-! ## C9 — hex-field validation timing -/

/-- Whether the envelope contains a hex field (slot salt, wrap nonce, wrap
tag, wrapped key, or envelope-level nonce/tag) that does not decode. -/
def slotHasBadHex (s : aegisSlot) : Bool :=
  (hexDecode s.salt).isNone || (hexDecode s.keyParams.nonce).isNone ||
    (hexDecode s.keyParams.tag).isNone || (hexDecode s.key).isNone

/-- Whether any hex field of the envelope fails to decode. -/
def envHasBadHexField (env : aegisEncryptedJSON) : Bool :=
  env.header.slots.any slotHasBadHex ||
    (hexDecode env.header.params.nonce).isNone ||
    (hexDecode env.header.params.tag).isNone

/-- C9 as stated (weakened to its observable consequence, which is what
gets refuted): an envelope with an undecodable hex field always makes
`aegisDecrypt` fail. -/
def c9Claim : Prop :=
  ∀ (C : Crypto) (env : aegisEncryptedJSON) (pw : List Nat),
    envHasBadHexField env = true →
    ∃ e, aegisDecrypt C env pw = Except.error e

/-- Counterexample to C9: `envSecondBad` has an undecodable slot salt in
its second slot, but the first slot authenticates, so the second slot is
never examined and `aegisDecrypt` succeeds — no `MalformedEnvelope`-style
failure is ever reported. -/
theorem aegisDecrypt_c9_counterexample : ¬ c9Claim := by
  intro h
  obtain ⟨e, he⟩ := h cryptoOpen32 envSecondBad pwW (by decide)
  have hok : aegisDecrypt cryptoOpen32 envSecondBad pwW = Except.ok [9] := by decide
  rw [hok] at he
  exact Except.noConfusion he

/-- C9 (amended): hex fields are validated lazily while the slot loop
runs, not at an envelope-decoding stage: when the first password slot the
loop reaches has an undecodable salt, `aegisDecrypt` aborts with the
field-identifying "slot salt" error, which is distinct from the generic
key-derivation (`DecryptionFailed`) error; undecodable fields in slots
the loop never reaches cause no error at all (see the counterexample). -/
theorem aegisDecrypt_c9_amended (C : Crypto) (env : aegisEncryptedJSON)
    (pw : List Nat) (pre : List aegisSlot) (s : aegisSlot) (rest : List aegisSlot)
    (hslots : env.header.slots = pre ++ s :: rest)
    (hpre : ∀ s2 ∈ pre, s2.type ≠ 1)
    (hs : s.type = 1)
    (hsalt : hexDecode s.salt = none) :
    aegisDecrypt C env pw = Except.error .slotSalt ∧
    aegisError.slotSalt ≠ aegisError.keyRecovery ∧
    errorMessage .slotSalt ≠ errorMessage .keyRecovery := by
  have hatt : slotAttempt C pw s = Except.error .slotSalt := by
    simp only [slotAttempt, hsalt]
  have hrec : recoverMasterKey C pw env.header.slots = Except.error .slotSalt := by
    rw [hslots, recoverMasterKey_skip C pw pre (s :: rest)
      (fun s2 hs2 => Or.inl (hpre s2 hs2))]
    simp only [recoverMasterKey, if_pos hs, hatt]
  refine ⟨?_, by decide, by decide⟩
  simp only [aegisDecrypt, hrec]

/-- Witness for C9 (amended): a non-password slot followed by a password
slot with an undecodable salt yields the "slot salt" error. -/
theorem aegisDecrypt_c9_witness :
    aegisDecrypt cryptoOpen32
      { version := 1, header := { slots := [slotT2, slotBadSalt], params := paramsW }
        db := "AAAA" } pwW = Except.error .slotSalt := by
  exact (aegisDecrypt_c9_amended cryptoOpen32
    { version := 1, header := { slots := [slotT2, slotBadSalt], params := paramsW }
      db := "AAAA" } pwW [slotT2] slotBadSalt []
    rfl (by decide) (by decide) (by decide)).1

/-! ## C2 — per-record TOTP parameters -/

/-- A decimal representation of `n < 10^d` has at most `d` digits. -/
theorem decDigits_length_le : ∀ (d n : Nat), 0 < d → n < 10 ^ d →
    (decDigits n).length ≤ d := by
  intro d
  induction d with
  | zero => intro n h; omega
  | succ d ih =>
    intro n _ hn
    rw [decDigits]
    by_cases h10 : n < 10
    · simp [h10]
    · simp only [dif_neg h10, List.length_append, List.length_cons, List.length_nil]
      have hd : 0 < d := by
        rcases Nat.eq_zero_or_pos d with h0 | h0
        · subst h0; simp [pow_succ, pow_zero] at hn; omega
        · exact h0
      have hdiv : n / 10 < 10 ^ d := by
        apply (Nat.div_lt_iff_lt_mul (by norm_num : (0:Nat) < 10)).mpr
        calc n < 10 ^ (d + 1) := hn
          _ = 10 ^ d * 10 := by rw [pow_succ]
      have := ih (n / 10) hd hdiv
      omega

/-- Zero-padding a list of at most `d` characters yields exactly `d`. -/
theorem zfill_length (d : Nat) (s : List Char) (h : s.length ≤ d) :
    (zfill d s).length = d := by
  simp only [zfill, List.length_append, List.length_replicate]
  omega

/-- A generated code always has exactly `digits` characters, whatever the
digest: the truncated value is reduced modulo `10^digits` and padded. -/
theorem totpCode_length (hm : List Nat → List Nat → List Nat) (key : List Nat)
    (d p t : Nat) (hd : 0 < d) : (totpCode hm key d p t).length = d := by
  show (String.mk (zfill d (decDigits _))).length = d
  have hlt : dynamicTruncate (hm key (toBytesBE 8 (t / p))) % 10 ^ d < 10 ^ d :=
    Nat.mod_lt _ (Nat.pos_pow_of_pos d (by norm_num))
  have := decDigits_length_le d _ hd hlt
  simpa [String.length] using zfill_length d _ this

/-- Modelled from the spec (section 4.5 and its open question): the token
the claim says a `"totp"` record should get — computed with the record's
own digit count and time step, the fixed defaults 6 and 30 applying only
when the respective field is unspecified (zero in the decoded JSON). The
record's hash algorithm is likewise claimed to be honored; only SHA-1
records (`algo` unspecified or "SHA1") are exercised by this development,
so the HMAC is `hmacSha1` here. -/
def specTotpToken (t : Nat) (e : aegisEntry) : String :=
  if e.type = "totp" then
    match base32Decode e.info.secret with
    | some key =>
      totpCode hmacSha1 key
        (if e.info.digits = 0 then 6 else e.info.digits.toNat)
        (if e.info.period = 0 then 30 else e.info.period.toNat) t
    | none => ""
  else "Unknown OTP type: " ++ e.type

/-- A `"totp"` record that specifies 8 digits and a 60-second period. -/
def entryC2 : aegisEntry :=
  { type := "totp", name := "acct", issuer := "iss", icon := ""
    info := { secret := "AAAA", digits := 8, algo := "", period := 60 } }

/-- Counterexample to C2: for a record specifying `digits = 8`, the code's
token (`gotp.NewDefaultTOTP`: always 6 digits) differs from the token the
claim prescribes (8 digits): the two strings have different lengths. -/
theorem entryToken_c2_counterexample :
    entryToken 59 entryC2 ≠ specTotpToken 59 entryC2 := by
  intro heq
  have h1 : entryToken 59 entryC2 = totpCode hmacSha1 [0, 0] 6 30 59 := rfl
  have h2 : specTotpToken 59 entryC2 = totpCode hmacSha1 [0, 0] 8 60 59 := rfl
  have l1 := totpCode_length hmacSha1 [0, 0] 6 30 59 (by omega)
  have l2 := totpCode_length hmacSha1 [0, 0] 8 60 59 (by omega)
  rw [h1, h2] at heq
  have hlen := congrArg String.length heq
  rw [l1, l2] at hlen
  omega

/-- C2 (amended): the token of every `"totp"` record is computed by the
fixed-default generator — SHA-1, 6 digits, 30-second step — regardless of
the record's own `digits`, `period` and `algo` fields: changing those
fields never changes the token, and for a decodable secret the token is
the 6-digit default code. -/
theorem entryToken_c2_amended (t : Nat) (e : aegisEntry) (d p : Int) (a : String)
    (h : e.type = "totp") :
    entryToken t e = defaultTOTPNow e.info.secret t ∧
    entryToken t e =
      entryToken t { e with info := { e.info with digits := d, period := p, algo := a } } ∧
    (∀ key, base32Decode e.info.secret = some key →
      entryToken t e = totpCode hmacSha1 key 6 30 t ∧ (entryToken t e).length = 6) := by
  refine ⟨by simp [entryToken, h], by simp [entryToken, h], ?_⟩
  intro key hk
  have he : entryToken t e = totpCode hmacSha1 key 6 30 t := by
    simp [entryToken, h, defaultTOTPNow, hk]
  exact ⟨he, by rw [he]; exact totpCode_length hmacSha1 key 6 30 t (by omega)⟩

/-- Witness for C2 (amended): the concrete 8-digit record gets the
6-character default token, unchanged when its fields are zeroed. -/
theorem entryToken_c2_witness :
    entryToken 59 entryC2 = defaultTOTPNow "AAAA" 59 ∧
    entryToken 59 entryC2 =
      entryToken 59 { entryC2 with info := { entryC2.info with digits := 0, period := 0, algo := "" } } ∧
    (entryToken 59 entryC2).length = 6 := by
  have h := entryToken_c2_amended 59 entryC2 0 0 "" rfl
  exact ⟨h.1, h.2.1, (h.2.2 [0, 0] rfl).2⟩

/-! ## C5 — filtering by issuer or name -/

/-- C5 (amended): an entry is kept exactly when the compiled pattern
matches its issuer or its name — the secret is never consulted — and kept
entries map one-to-one onto output rows; with no user pattern, the
compiled default pattern is `"."`, which matches exactly the strings
containing a non-newline character, so an entry whose issuer and name
both lack such a character is dropped (rather than "every entry kept"). -/
theorem filterAegisVault_c5_amended (t : Nat) (m : String → Bool)
    (es : List aegisEntry) :
    filterAegisVault t m es =
      (es.filter (fun e => m e.issuer || m e.name)).map (otpOf t) ∧
    filterAegisVault t dotMatch es =
      (es.filter (fun e =>
        e.issuer.data.any (fun c => c ≠ '\n') ||
          e.name.data.any (fun c => c ≠ '\n'))).map (otpOf t) := by
  have key : ∀ (m2 : String → Bool) (l : List aegisEntry),
      filterAegisVault t m2 l = (l.filter (fun e => m2 e.issuer || m2 e.name)).map (otpOf t) := by
    intro m2 l
    induction l with
    | nil => rfl
    | cons e rest ih =>
      by_cases h : (m2 e.issuer || m2 e.name) = true
      · simp [filterAegisVault, List.filter_cons, h, ih, otpOf, entryToken]
      · simp [filterAegisVault, List.filter_cons, h, ih]
  exact ⟨key m es, key dotMatch es⟩

/-- A `"totp"` entry whose issuer and name are both empty. -/
def entryEmptyNames : aegisEntry :=
  { type := "totp", name := "", issuer := "", icon := ""
    info := { secret := "AAAA", digits := 0, algo := "", period := 0 } }

/-- Counterexample to C5 as stated: with no user pattern (the compiled
default `"."`), the entry with empty issuer and name is dropped, so the
output is not the one-to-one image of the input. -/
theorem filterAegisVault_c5_counterexample :
    filterAegisVault 0 dotMatch [entryEmptyNames] = [] ∧
    filterAegisVault 0 dotMatch [entryEmptyNames] ≠ [entryEmptyNames].map (otpOf 0) := by
  have h0 : filterAegisVault 0 dotMatch [entryEmptyNames] = [] := rfl
  refine ⟨h0, ?_⟩
  intro h
  rw [h0, List.map_cons] at h
  exact List.noConfusion h

/-! ## C7 — unsupported entry kinds degrade per entry -/

/-- C7: an entry whose kind is not `"totp"` gets exactly the sentinel
token `"Unknown OTP type: " ++ kind`, and processing continues: the
output for the remaining entries is unchanged, with this entry
contributing its row exactly when the pattern matches it. -/
theorem filterAegisVault_c7 (t : Nat) (m : String → Bool) (e : aegisEntry)
    (rest : List aegisEntry) (h : e.type ≠ "totp") :
    entryToken t e = "Unknown OTP type: " ++ e.type ∧
    filterAegisVault t m (e :: rest) =
      (if m e.issuer || m e.name then [otpOf t e] else []) ++ filterAegisVault t m rest := by
  refine ⟨by simp [entryToken, h], ?_⟩
  by_cases hm : (m e.issuer || m e.name) = true
  · simp [filterAegisVault, hm, otpOf, entryToken]
  · simp [filterAegisVault, hm]

/-- An entry of the unsupported kind `"hotp"`. -/
def entryHotp : aegisEntry :=
  { type := "hotp", name := "nm", issuer := "is", icon := ""
    info := { secret := "AAAA", digits := 0, algo := "", period := 0 } }

/-- Witness for C7: the `"hotp"` entry yields the sentinel token and a
following `"steam"` entry is still processed into the output. -/
theorem filterAegisVault_c7_witness :
    entryToken 0 entryHotp = "Unknown OTP type: hotp" ∧
    filterAegisVault 0 (fun _ => true) [entryHotp,
        { entryHotp with type := "steam" }] =
      [otpOf 0 entryHotp, otpOf 0 { entryHotp with type := "steam" }] := by
  have h := filterAegisVault_c7 0 (fun _ => true) entryHotp
    [{ entryHotp with type := "steam" }] (by decide)
  have h2 := filterAegisVault_c7 0 (fun _ => true) { entryHotp with type := "steam" }
    [] (by decide)
  refine ⟨h.1.trans rfl, ?_⟩
  rw [h.2, h2.2]
  simp [filterAegisVault]

/-! ## C8 — deterministic ordering by composite key -/

/-- C8: the pipeline's sort pass produces a permutation of its input that
is ordered (descending) by the composite key `issuer + "/" + account`;
the embedding is a function, so identical input yields the identical
output order. -/
theorem sortVault_c8 (v : List otpEntry) :
    (sortVault v).Perm v ∧
    List.Sorted vaultLess (sortVault v) ∧
    sortVault v = sortVault v :=
  ⟨List.perm_insertionSort vaultLess v,
   List.sorted_insertionSort vaultLess v,
   rfl⟩

/-! ## C10 — the piped-password read -/

/-- Trimming distributes over the trailing zero padding. -/
theorem trimRight_append_zeros (chunk : List Nat) (k : Nat) :
    trimRightCRLFNul (chunk ++ List.replicate k 0) = trimRightCRLFNul chunk := by
  unfold trimRightCRLFNul
  rw [List.reverse_append, List.reverse_replicate]
  congr 1
  induction k with
  | zero => simp
  | succ k ih =>
    rw [List.replicate_succ, List.cons_append, List.dropWhile_cons]
    simp [ih]

/-- Trimming removes exactly a trailing run of CR/LF/NUL: the trimmed
result is a prefix of the input and the removed suffix contains only
those bytes (interior bytes are untouched). -/
theorem trimRight_decomp (l : List Nat) :
    ∃ junk, l = trimRightCRLFNul l ++ junk ∧
      ∀ b ∈ junk, b = 13 ∨ b = 10 ∨ b = 0 := by
  refine ⟨(l.reverse.takeWhile (fun b => b = 13 || b = 10 || b = 0)).reverse, ?_, ?_⟩
  · conv_lhs => rw [← l.reverse_reverse,
      ← List.takeWhile_append_dropWhile (fun b => b = 13 || b = 10 || b = 0) l.reverse]
    rw [List.reverse_append]
    rfl
  · intro b hb
    rw [List.mem_reverse] at hb
    have := List.mem_takeWhile_imp hb
    simpa [or_assoc] using this

/-- C10: when standard input is not a terminal, the single at-most-256-byte
read yields exactly the read bytes with only the trailing run of CR, LF
and NUL removed — the zero tail of the buffer disappears with the trim,
interior CR/LF/NUL bytes are preserved in place, and a pipe longer than
256 bytes is silently truncated to the bytes of that first read. -/
theorem readPassword_c10 (chunk : List Nat) (_h : chunk.length ≤ 256) :
    readPasswordPiped chunk = trimRightCRLFNul chunk ∧
    (∃ junk, chunk = readPasswordPiped chunk ++ junk ∧
      ∀ b ∈ junk, b = 13 ∨ b = 10 ∨ b = 0) ∧
    (∀ stream : List Nat, readPasswordPiped (stream.take 256) =
      trimRightCRLFNul (stream.take 256)) := by
  have heq : ∀ c : List Nat, readPasswordPiped c = trimRightCRLFNul c :=
    fun c => trimRight_append_zeros c (256 - c.length)
  refine ⟨heq chunk, ?_, fun stream => heq (stream.take 256)⟩
  rw [heq chunk]
  exact trimRight_decomp chunk

/-- Witness for C10: a password with interior and trailing CR/LF/NUL
bytes: only the trailing run is removed. -/
theorem readPassword_c10_witness :
    ([104, 13, 105, 13, 10, 0] : List Nat).length ≤ 256 ∧
    readPasswordPiped [104, 13, 105, 13, 10, 0] = trimRightCRLFNul [104, 13, 105, 13, 10, 0] ∧
    readPasswordPiped [104, 13, 105, 13, 10, 0] = [104, 13, 105] :=
  ⟨by decide,
   (readPassword_c10 [104, 13, 105, 13, 10, 0] (by decide)).1,
   by decide⟩

end TermOTP
